import Mathlib

/- Shallow embedding of the cold-atoms particle core (particles.py and
   radiation_pressure.py).  numpy float64 arithmetic is modelled over ℚ
   (exact) for the particle/ensemble code, and over ℝ for the radiation
   pressure force, which involves π and square roots.  numpy arrays are
   modelled as lists of rows along the leading (particle) dimension. -/

/-- A 3-vector, modelling one row of a numpy array of shape (N, 3). -/
structure Vec3 (α : Type) where
  x : α
  y : α
  z : α
  deriving DecidableEq, Repr

instance {α : Type} [Add α] : Add (Vec3 α) :=
  ⟨fun a b => ⟨a.x + b.x, a.y + b.y, a.z + b.z⟩⟩

instance {α : Type} [Sub α] : Sub (Vec3 α) :=
  ⟨fun a b => ⟨a.x - b.x, a.y - b.y, a.z - b.z⟩⟩

instance {α : Type} [Mul α] : SMul α (Vec3 α) :=
  ⟨fun c a => ⟨c * a.x, c * a.y, c * a.z⟩⟩

instance {α : Type} [Zero α] : Zero (Vec3 α) := ⟨⟨0, 0, 0⟩⟩

/-- Dot product of two 3-vectors (numpy a.dot(b)). -/
def Vec3.dot {α : Type} [Add α] [Mul α] (a b : Vec3 α) : α :=
  a.x * b.x + a.y * b.y + a.z * b.z

/-- Componentwise division of a 3-vector by a scalar (numpy broadcasting). -/
instance {α : Type} [Div α] : HDiv (Vec3 α) α (Vec3 α) :=
  ⟨fun a c => ⟨a.x / c, a.y / c, a.z / c⟩⟩

/-- A per-particle property array: the list of rows along the leading
    (particle) dimension, each row holding the flattened trailing entries
    of that particle. -/
structure PropArray where
  rows : List (List ℚ)
  deriving DecidableEq, Repr

/-- The particle ensemble (class Ensemble): positions x, velocities v,
    ensemble-wide properties and per-particle properties.  The Python dicts
    are modelled as association lists; ensemble-wide property values are
    modelled as scalars. -/
structure Ensemble where
  x : List (Vec3 ℚ)
  v : List (Vec3 ℚ)
  ensemble_properties : List (String × ℚ)
  particle_properties : List (String × PropArray)
  deriving DecidableEq, Repr

/-- Ensemble.__init__(num_ptcls): zero-initialised positions and
    velocities of leading dimension num_ptcls, empty property maps. -/
def Ensemble.init (num_ptcls : Nat) : Ensemble :=
  { x := List.replicate num_ptcls 0
    v := List.replicate num_ptcls 0
    ensemble_properties := []
    particle_properties := [] }

/-- Ensemble.get_num_ptcls: the leading dimension of x (x.shape[0]). -/
def Ensemble.num_ptcls (e : Ensemble) : Nat := e.x.length

/-- ndarray.resize along the leading dimension: keep the first new_size
    rows (flat C order, with fixed row size this is row-wise) and
    zero-fill any growth. -/
def resizeRows {α : Type} [Zero α] (l : List α) (new_size : Nat) : List α :=
  l.take new_size ++ List.replicate (new_size - l.length) 0

/-- The per-particle property branch of Ensemble.resize: the source builds
    the new shape as [prop.shape] — a one-element list holding the shape
    tuple — and then overwrites element 0 with new_size, producing the
    one-dimensional shape [new_size]; ndarray.resize then flattens the
    array in C order to a 1-D array of length new_size (truncating or
    zero-filling). -/
def propResize (p : PropArray) (new_size : Nat) : PropArray :=
  ⟨(resizeRows p.rows.flatten new_size).map (fun a => [a])⟩

/-- Ensemble.resize(new_size). -/
def Ensemble.resize (e : Ensemble) (new_size : Nat) : Ensemble :=
  { e with
    x := resizeRows e.x new_size
    v := resizeRows e.v new_size
    particle_properties :=
      e.particle_properties.map (fun kp => (kp.1, propResize kp.2 new_size)) }

/-- np.delete(arr, indices, 0): drop the rows whose index is in indices,
    keeping the survivors in their original order.  The counter i is the
    index of the head of the remaining list in the original array. -/
def npDeleteFrom {α : Type} (indices : List Nat) : Nat → List α → List α
  | _, [] => []
  | i, a :: rest =>
    if indices.contains i then npDeleteFrom indices (i + 1) rest
    else a :: npDeleteFrom indices (i + 1) rest

/-- np.delete(arr, indices, 0) on the whole array. -/
def npDelete {α : Type} (l : List α) (indices : List Nat) : List α :=
  npDeleteFrom indices 0 l

/-- Ensemble.delete(indices): x and v are rebound to np.delete results;
    the loop over particle_properties only rebinds its local loop
    variable, so the stored per-particle property arrays are left
    unchanged. -/
def Ensemble.delete (e : Ensemble) (indices : List Nat) : Ensemble :=
  { e with x := npDelete e.x indices, v := npDelete e.v indices }

/-- An operation on an ensemble after creation: resize or delete. -/
inductive EnsOp where
  | resize (new_size : Nat)
  | delete (indices : List Nat)

/-- Apply one operation. -/
def applyOp (e : Ensemble) : EnsOp → Ensemble
  | .resize m => e.resize m
  | .delete idxs => e.delete idxs

/-- Apply a sequence of operations in order. -/
def applyOps (e : Ensemble) (ops : List EnsOp) : Ensemble :=
  ops.foldl applyOp e

/-- Concrete two-particle ensemble with a 1-D per-particle property. -/
def exC1 : Ensemble :=
  { x := [⟨0, 0, 0⟩, ⟨1, 1, 1⟩], v := [⟨2, 2, 2⟩, ⟨3, 3, 3⟩]
    ensemble_properties := []
    particle_properties := [("a", ⟨[[10], [20]]⟩)] }

/-- Concrete two-particle ensemble with a (2,3) per-particle property. -/
def exC2 : Ensemble :=
  { x := [⟨0, 0, 0⟩, ⟨1, 1, 1⟩], v := [⟨2, 2, 2⟩, ⟨3, 3, 3⟩]
    ensemble_properties := []
    particle_properties := [("q", ⟨[[1, 2, 3], [4, 5, 6]]⟩)] }

/-- A particle source (class Source).  num_ptcls_produced may return a
    different value on each call (stochastic sources are documented as
    legal); its first argument is the number of earlier calls made to it,
    so the k-th call returns num_ptcls_produced k dt. -/
structure Source where
  num_ptcls_produced : Nat → ℚ → Nat
  produce_ptcls : ℚ → Nat → Nat → Ensemble → Ensemble

/-- The second loop of produce_ptcls: hand each source the slice
    [start, start + k) for its cached count k, then advance start by k. -/
def produceLoop (dt : ℚ) : List (Source × Nat) → Nat → Ensemble → Ensemble
  | [], _, e => e
  | (s, k) :: rest, start, e =>
      produceLoop dt rest (start + k) (s.produce_ptcls dt start (start + k) e)

/-- produce_ptcls(dt, ensemble, sources): query each source's count once
    (its first call, index 0), resize to the old count plus the total,
    then hand out contiguous slices in source-list order. -/
def produce_ptcls (dt : ℚ) (ensemble : Ensemble) (sources : List Source) :
    Ensemble :=
  let num_new_ptcls := sources.map (fun s => s.num_ptcls_produced 0 dt)
  let tot_new_ptcls := num_new_ptcls.sum
  let start := ensemble.num_ptcls
  produceLoop dt (sources.zip num_new_ptcls) start
    (ensemble.resize (ensemble.num_ptcls + tot_new_ptcls))

/-- The claim's description of the production loop: source i is given the
    contiguous slice starting at initial plus the sum of the earlier
    sources' counts; done is the list of counts already served. -/
def specLoop (dt : ℚ) (initial : Nat) :
    List Nat → List (Source × Nat) → Ensemble → Ensemble
  | _, [], e => e
  | done, (s, k) :: rest, e =>
      specLoop dt initial (done ++ [k]) rest
        (s.produce_ptcls dt (initial + done.sum) (initial + done.sum + k) e)

/-- The claim's description of produce_ptcls: cache each source's first
    count query, resize to initial plus the total of the cached counts,
    then give source i the slice starting at initial plus the sum of the
    earlier counts. -/
def produce_ptcls_spec (dt : ℚ) (ensemble : Ensemble)
    (sources : List Source) : Ensemble :=
  let initial := ensemble.num_ptcls
  let counts := sources.map (fun s => s.num_ptcls_produced 0 dt)
  specLoop dt initial [] (sources.zip counts)
    (ensemble.resize (initial + counts.sum))

/-- A particle sink (class Sink): find_absorption_time maps positions,
    velocities and dt to per-particle absorption times; record_absorption
    is a hook called before deletion (the base class does nothing, but a
    subclass may mutate the ensemble). -/
structure Sink where
  find_absorption_time : List (Vec3 ℚ) → List (Vec3 ℚ) → ℚ → List ℚ
  record_absorption : Ensemble → ℚ → List ℚ → List Nat → Ensemble

/-- A sink that absorbs particles hitting a plane (class SinkPlane),
    given by a point in the plane and a normal to the plane. -/
structure SinkPlane where
  point : Vec3 ℚ
  normal : Vec3 ℚ

/-- SinkPlane.find_absorption_time: per particle, the sentinel 2*dt when
    the normal velocity component is exactly zero (never dividing by
    zero), otherwise dot(normal, point - x_i) / dot(normal, v_i). -/
def SinkPlane.find_absorption_time (sp : SinkPlane)
    (x v : List (Vec3 ℚ)) (dt : ℚ) : List ℚ :=
  (x.zip v).map (fun xv =>
    let normal_velocity := sp.normal.dot xv.2
    if normal_velocity = 0 then 2 * dt
    else sp.normal.dot (sp.point - xv.1) / normal_velocity)

/-- View a SinkPlane as a Sink; record_absorption is inherited from the
    base class and does nothing. -/
def SinkPlane.toSink (sp : SinkPlane) : Sink :=
  { find_absorption_time := sp.find_absorption_time
    record_absorption := fun e _ _ _ => e }

/-- process_sink(dt, ensemble, sink): no-op when the sink is None;
    otherwise select the indices whose absorption time tau satisfies
    abs(tau - dt/2) <= dt/2, call record_absorption with the times and
    the selected indices, then delete those indices. -/
def process_sink (dt : ℚ) (ensemble : Ensemble) (sink : Option Sink) :
    Ensemble :=
  match sink with
  | none => ensemble
  | some sk =>
    let absorption_times := sk.find_absorption_time ensemble.x ensemble.v dt
    let absorption_indices :=
      (((List.range ensemble.num_ptcls).zip absorption_times).filter
        (fun p => decide (|p.2 - dt / 2| ≤ dt / 2))).map Prod.fst
    (sk.record_absorption ensemble dt absorption_times
      absorption_indices).delete absorption_indices

/-- A force (contract force(dt, ensemble, f)): adds its time-integrated
    contribution to the accumulator f and returns the updated
    accumulator. -/
structure Force where
  force : ℚ → Ensemble → List (Vec3 ℚ) → List (Vec3 ℚ)

/-- The mass resolved for the kick: either the ensemble-wide scalar or a
    per-particle array. -/
inductive MassVal where
  | scalar (m : ℚ)
  | perParticle (p : PropArray)
  deriving DecidableEq, Repr

/-- Errors raised by the integrator (RuntimeError in the source). -/
inductive SimError where
  | MissingMass
  deriving DecidableEq, Repr

/-- The mass resolution in drift_kick: the key mass is looked up first in
    the ensemble-wide properties, then in the per-particle properties; if
    absent from both, the RuntimeError branch is taken. -/
def massLookup (e : Ensemble) : Option MassVal :=
  match e.ensemble_properties.lookup "mass" with
  | some m => some (.scalar m)
  | none =>
    match e.particle_properties.lookup "mass" with
    | some p => some (.perParticle p)
    | none => none

/-- ensemble.v += f / m: the accumulated force divided by the mass.
    Per-particle mass arrays are modelled with one scalar per particle
    row (numpy shape (N, 1) broadcasting). -/
def massDiv (f : List (Vec3 ℚ)) (m : MassVal) : List (Vec3 ℚ) :=
  match m with
  | .scalar c => f.map (fun fi => fi / c)
  | .perParticle p => List.zipWith (fun fi row => fi / row.headI) f p.rows

/-- ensemble.x += c * ensemble.v, elementwise over the particle rows. -/
def kinDrift (c : ℚ) (x v : List (Vec3 ℚ)) : List (Vec3 ℚ) :=
  List.zipWith (fun xi vi => xi + c • vi) x v

/-- drift_kick(dt, ensemble, forces, sink): with no forces, process the
    sink over the full dt and drift positions by dt * v; otherwise the
    symmetric half-sink, half-drift, kick, half-sink, half-drift
    sequence, resolving the mass property for the kick and raising
    MissingMass when it is absent. -/
def drift_kick (dt : ℚ) (ensemble : Ensemble) (forces : List Force)
    (sink : Option Sink) : Except SimError Ensemble :=
  if forces.isEmpty then
    let e := process_sink dt ensemble sink
    .ok { e with x := kinDrift dt e.x e.v }
  else
    let e1 := process_sink (dt / 2) ensemble sink
    let e2 := { e1 with x := kinDrift (dt / 2) e1.x e1.v }
    let f0 : List (Vec3 ℚ) := e2.v.map (fun _ => 0)
    let f := forces.foldl (fun acc frc => frc.force dt e2 acc) f0
    match massLookup e2 with
    | none => .error .MissingMass
    | some m =>
      let e3 := { e2 with
        v := List.zipWith (fun vi a => vi + a) e2.v (massDiv f m) }
      let e4 := process_sink (dt / 2) e3 sink
      .ok { e4 with x := kinDrift (dt / 2) e4.x e4.v }

/-- Witness source: the first count call returns 2, later calls 99. -/
def srcA : Source :=
  { num_ptcls_produced := fun k _ => if k = 0 then 2 else 99
    produce_ptcls := fun _ _ _ e => e }

/-- Witness source: every count call returns 1. -/
def srcB : Source :=
  { num_ptcls_produced := fun _ _ => 1
    produce_ptcls := fun _ _ _ e => e }

/-- Rewires every count call after the first to return 7, keeping the
    first call and the production behaviour. -/
def laterCallsChanged (s : Source) : Source :=
  { num_ptcls_produced := fun k =>
      if k = 0 then s.num_ptcls_produced 0 else fun _ => 7
    produce_ptcls := s.produce_ptcls }

/-- The plane through the origin with normal (0, 0, 1). -/
def planeZ : SinkPlane := { point := ⟨0, 0, 0⟩, normal := ⟨0, 0, 1⟩ }

/-- One particle at z = 5 falling with v_z = -10. -/
def ensFalling : Ensemble :=
  { x := [⟨0, 0, 5⟩], v := [⟨0, 0, -10⟩]
    ensemble_properties := [], particle_properties := [] }

/-- One particle at z = 5 moving parallel to the plane (v_z = 0). -/
def ensSliding : Ensemble :=
  { x := [⟨0, 0, 5⟩], v := [⟨1, 0, 0⟩]
    ensemble_properties := [], particle_properties := [] }

/-- Witness sink: absorption times are all the sentinel 2*dt. -/
def skW : Sink :=
  { find_absorption_time := fun x _ dt => x.map (fun _ => 2 * dt)
    record_absorption := fun e _ _ _ => e }

/-- Witness force that adds nothing to the accumulator. -/
def forceZero : Force := { force := fun _ _ acc => acc }

/-- Witness ensemble with an ensemble-wide mass of 5. -/
def eW : Ensemble :=
  { Ensemble.init 1 with ensemble_properties := [("mass", 5)] }

/-- Euclidean norm of a 3-vector (np.linalg.norm). -/
noncomputable def norm3 (k : Vec3 ℝ) : ℝ :=
  Real.sqrt (k.x ^ 2 + k.y ^ 2 + k.z ^ 2)

/-- RadiationPressure: decay rate gamma, single-photon recoil momentum
    hbar_k, and the opaque intensity and detuning profile capabilities
    (intensity.intensities applied to the positions, detuning.detunings
    applied to positions and velocities).  The float arithmetic of
    radiation_pressure.py is modelled over ℝ. -/
structure RadiationPressure where
  gamma : ℝ
  hbar_k : Vec3 ℝ
  intensity : List (Vec3 ℝ) → List ℝ
  detuning : List (Vec3 ℝ) → List (Vec3 ℝ) → List ℝ

/-- RadiationPressure.__init__: stores gamma, a copy of hbar_k, and the
    two profile objects; no validation of any kind is performed. -/
def RadiationPressure.init (gamma : ℝ) (hbar_k : Vec3 ℝ)
    (intensity : List (Vec3 ℝ) → List ℝ)
    (detuning : List (Vec3 ℝ) → List (Vec3 ℝ) → List ℝ) :
    RadiationPressure :=
  { gamma := gamma, hbar_k := hbar_k
    intensity := intensity, detuning := detuning }

/-- The expected number of scattered photons for one particle over the
    step: dt * s * ((gamma/2/pi) * (gamma/2)^2 /
    ((gamma/2)^2 * (1 + 2*s) + delta^2)). -/
noncomputable def nbarOf (gamma dt s delta : ℝ) : ℝ :=
  dt * s * ((gamma / 2 / Real.pi) * (gamma / 2) ^ 2 /
    ((gamma / 2) ^ 2 * (1 + 2 * s) + delta ^ 2))

/-- RadiationPressure.force(dt, ensemble, f): x and v are the ensemble
    arrays, draws is the np.random.normal sample (one standard Gaussian
    3-vector per particle) and f is the force accumulator, returned
    updated.  recoil_momenta is the draw scaled by
    sqrt(nbar/3) * norm(hbar_k), and f += nbar * hbar_k +
    recoil_momenta componentwise. -/
noncomputable def RadiationPressure.force (rp : RadiationPressure)
    (dt : ℝ) (x v draws f : List (Vec3 ℝ)) : List (Vec3 ℝ) :=
  let s_of_r := rp.intensity x
  let deltas := rp.detuning x v
  let nbars :=
    List.zipWith (fun s delta => nbarOf rp.gamma dt s delta) s_of_r deltas
  let recoil_momenta :=
    List.zipWith (fun r nb => (Real.sqrt (nb / 3) * norm3 rp.hbar_k) • r)
      draws nbars
  List.zipWith (fun fi p => fi + p) f
    (List.zipWith (fun nb rc => nb • rp.hbar_k + rc) nbars recoil_momenta)

/-- Intensity profile that is -1/10 everywhere (a pathological input). -/
noncomputable def intensNeg : List (Vec3 ℝ) → List ℝ :=
  fun x => x.map (fun _ => -1 / 10)

/-- Intensity profile that is 0 everywhere. -/
noncomputable def intensZero : List (Vec3 ℝ) → List ℝ :=
  fun x => x.map (fun _ => 0)

/-- Detuning profile that is 0 everywhere. -/
noncomputable def detunZero : List (Vec3 ℝ) → List (Vec3 ℝ) → List ℝ :=
  fun x _ => x.map (fun _ => 0)

/-- Radiation pressure object with gamma = 2 and the pathological
    negative intensity profile. -/
noncomputable def rpNeg : RadiationPressure :=
  RadiationPressure.init 2 ⟨1, 0, 0⟩ intensNeg detunZero

/-- Radiation pressure object with gamma = 2 and zero intensity. -/
noncomputable def rpZero : RadiationPressure :=
  RadiationPressure.init 2 ⟨1, 0, 0⟩ intensZero detunZero

@[simp] lemma Vec3.add_def {α : Type} [Add α] (a b : Vec3 α) :
    a + b = ⟨a.x + b.x, a.y + b.y, a.z + b.z⟩ := rfl

@[simp] lemma Vec3.sub_def {α : Type} [Sub α] (a b : Vec3 α) :
    a - b = ⟨a.x - b.x, a.y - b.y, a.z - b.z⟩ := rfl

@[simp] lemma Vec3.smul_def {α : Type} [Mul α] (c : α) (a : Vec3 α) :
    c • a = ⟨c * a.x, c * a.y, c * a.z⟩ := rfl

@[simp] lemma Vec3.div_def {α : Type} [Div α] (a : Vec3 α) (c : α) :
    a / c = ⟨a.x / c, a.y / c, a.z / c⟩ := rfl

@[simp] lemma Vec3.zero_def {α : Type} [Zero α] :
    (0 : Vec3 α) = ⟨0, 0, 0⟩ := rfl

lemma length_resizeRows {α : Type} [Zero α] (l : List α) (m : Nat) :
    (resizeRows l m).length = m := by
  simp only [resizeRows, List.length_append, List.length_take,
    List.length_replicate]
  omega

lemma length_npDeleteFrom {α β : Type} (indices : List Nat) :
    ∀ (i : Nat) (l : List α) (l' : List β), l.length = l'.length →
      (npDeleteFrom indices i l).length = (npDeleteFrom indices i l').length := by
  intro i l
  induction l generalizing i with
  | nil =>
    intro l' h
    have : l' = [] := List.length_eq_zero.mp h.symm
    subst this
    rfl
  | cons a rest ih =>
    intro l' h
    cases l' with
    | nil => simp at h
    | cons b rest' =>
      simp only [List.length_cons, Nat.succ.injEq] at h
      simp only [npDeleteFrom]
      by_cases hc : indices.contains i
      · simp only [hc, if_true]
        exact ih (i + 1) rest' h
      · simp only [hc, if_false, List.length_cons]
        exact congrArg Nat.succ (ih (i + 1) rest' h)

lemma applyOp_preserves_align (e : Ensemble) (op : EnsOp)
    (h : e.x.length = e.v.length) :
    (applyOp e op).x.length = (applyOp e op).v.length := by
  cases op with
  | resize m =>
    simp [applyOp, Ensemble.resize, length_resizeRows]
  | delete idxs =>
    simpa [applyOp, Ensemble.delete, npDelete] using
      length_npDeleteFrom idxs 0 e.x e.v h

lemma applyOps_preserves_align (ops : List EnsOp) :
    ∀ (e : Ensemble), e.x.length = e.v.length →
      (applyOps e ops).x.length = (applyOps e ops).v.length := by
  induction ops with
  | nil => intro e h; exact h
  | cons op rest ih =>
    intro e h
    exact ih (applyOp e op) (applyOp_preserves_align e op h)

/-- C10: starting from a freshly created ensemble, after any sequence of
resize and delete operations the positions and velocities arrays have the
same leading dimension, and num_ptcls equals that common leading
dimension. -/
theorem ensemble_xv_alignment (n : Nat) (ops : List EnsOp) :
    (applyOps (Ensemble.init n) ops).x.length =
      (applyOps (Ensemble.init n) ops).v.length ∧
    (applyOps (Ensemble.init n) ops).num_ptcls =
      (applyOps (Ensemble.init n) ops).x.length ∧
    (applyOps (Ensemble.init n) ops).num_ptcls =
      (applyOps (Ensemble.init n) ops).v.length := by
  have h0 : (Ensemble.init n).x.length = (Ensemble.init n).v.length := by
    simp [Ensemble.init]
  have h := applyOps_preserves_align ops (Ensemble.init n) h0
  exact ⟨h, rfl, h⟩

/-- C1: deleting index 0 from a two-particle ensemble carrying a
per-particle property removes the particle from x and v (leading
dimension 1, survivor order preserved) but leaves the stored per-particle
property array completely untouched, with leading dimension still 2. -/
theorem delete_leaves_properties_stale :
    (exC1.delete [0]).num_ptcls = 1 ∧
    (exC1.delete [0]).x = [⟨1, 1, 1⟩] ∧
    (exC1.delete [0]).v = [⟨3, 3, 3⟩] ∧
    (exC1.delete [0]).particle_properties = [("a", ⟨[[10], [20]]⟩)] := by
  refine ⟨rfl, rfl, rfl, rfl⟩

/-- C2: resizing a two-particle ensemble with a (2, 3) per-particle
property to three particles grows x and v correctly (existing rows
preserved, zero fill), but flattens the property array to the 1-D array
[1, 2, 3]: its entry at index 1 was [4, 5, 6] and is now the scalar 2, so
entries at indices below min(N, M) are not preserved. -/
theorem resize_flattens_property :
    (exC2.resize 3).x = [⟨0, 0, 0⟩, ⟨1, 1, 1⟩, ⟨0, 0, 0⟩] ∧
    (exC2.resize 3).v = [⟨2, 2, 2⟩, ⟨3, 3, 3⟩, ⟨0, 0, 0⟩] ∧
    (exC2.resize 3).particle_properties = [("q", ⟨[[1], [2], [3]]⟩)] := by
  refine ⟨rfl, rfl, rfl⟩

lemma specLoop_eq_produceLoop (dt : ℚ) (initial : Nat) :
    ∀ (pairs : List (Source × Nat)) (done : List Nat) (e : Ensemble),
      specLoop dt initial done pairs e =
        produceLoop dt pairs (initial + done.sum) e := by
  intro pairs
  induction pairs with
  | nil => intro done e; rfl
  | cons p rest ih =>
    intro done e
    obtain ⟨s, k⟩ := p
    simp only [specLoop, produceLoop]
    rw [ih]
    simp [List.sum_append, Nat.add_assoc]

lemma produceLoop_map_congr (dt : ℚ) (g : Source → Source)
    (hprod : ∀ s, (g s).produce_ptcls = s.produce_ptcls) :
    ∀ (ss : List Source) (ks : List Nat) (start : Nat) (e : Ensemble),
      produceLoop dt ((ss.map g).zip ks) start e =
        produceLoop dt (ss.zip ks) start e := by
  intro ss
  induction ss with
  | nil => intro ks start e; rfl
  | cons s rest ih =>
    intro ks start e
    cases ks with
    | nil => rfl
    | cons k krest =>
      simp only [List.map_cons, List.zip_cons_cons, produceLoop, hprod]
      exact ih krest (start + k) _

/-- C3: produce_ptcls equals the protocol description that queries each
source's count exactly once (call index 0), resizes the ensemble to the
initial count plus the sum of the cached counts, and then in source-list
order hands source i the contiguous slice starting at initial plus the
sum of the earlier counts; moreover the result is unchanged when the
sources' later count calls (index 1 and beyond) are replaced arbitrarily,
so the cached counts are reused and never re-queried. -/
theorem produce_ptcls_protocol (dt : ℚ) (ens : Ensemble) (ss : List Source)
    (g : Source → Source)
    (hcount : ∀ s, (g s).num_ptcls_produced 0 = s.num_ptcls_produced 0)
    (hprod : ∀ s, (g s).produce_ptcls = s.produce_ptcls) :
    produce_ptcls dt ens ss = produce_ptcls_spec dt ens ss ∧
    produce_ptcls dt ens (ss.map g) = produce_ptcls dt ens ss := by
  constructor
  · simp only [produce_ptcls, produce_ptcls_spec]
    rw [specLoop_eq_produceLoop]
    simp
  · simp only [produce_ptcls]
    have hm : (ss.map g).map (fun s => s.num_ptcls_produced 0 dt)
        = ss.map (fun s => s.num_ptcls_produced 0 dt) := by
      rw [List.map_map]
      apply List.map_congr_left
      intro s _
      show (g s).num_ptcls_produced 0 dt = s.num_ptcls_produced 0 dt
      rw [hcount]
    rw [hm]
    exact produceLoop_map_congr dt g hprod ss _ _ _

/-- C3 witness: a concrete run with two sources whose later count calls
are rewritten, instantiating the protocol theorem. -/
theorem produce_ptcls_protocol_witness :
    (∀ s, (laterCallsChanged s).num_ptcls_produced 0 =
      s.num_ptcls_produced 0) ∧
    (∀ s, (laterCallsChanged s).produce_ptcls = s.produce_ptcls) ∧
    (produce_ptcls 1 (Ensemble.init 1) [srcA, srcB] =
        produce_ptcls_spec 1 (Ensemble.init 1) [srcA, srcB] ∧
      produce_ptcls 1 (Ensemble.init 1) ([srcA, srcB].map laterCallsChanged) =
        produce_ptcls 1 (Ensemble.init 1) [srcA, srcB]) :=
  ⟨fun _ => rfl, fun _ => rfl,
    produce_ptcls_protocol 1 (Ensemble.init 1) [srcA, srcB]
      laterCallsChanged (fun _ => rfl) (fun _ => rfl)⟩

/-- C4: with a sink present and dt > 0, process_sink selects exactly the
indices whose absorption time lies in the closed interval [0, dt] (both
boundaries inclusive), calls record_absorption with those times and those
indices, and then deletes exactly those indices; with the sink absent it
leaves the ensemble unchanged. -/
theorem process_sink_selects_closed_interval (dt : ℚ) (ens : Ensemble)
    (sk : Sink) (hdt : 0 < dt) :
    process_sink dt ens (some sk) =
      (let taus := sk.find_absorption_time ens.x ens.v dt
       let idxs := (((List.range ens.num_ptcls).zip taus).filter
           (fun p => decide (0 ≤ p.2 ∧ p.2 ≤ dt))).map Prod.fst
       (sk.record_absorption ens dt taus idxs).delete idxs) ∧
    process_sink dt ens none = ens := by
  refine ⟨?_, rfl⟩
  have hfc : ∀ (l : List (Nat × ℚ)),
      l.filter (fun p => decide (|p.2 - dt / 2| ≤ dt / 2))
        = l.filter (fun p => decide (0 ≤ p.2 ∧ p.2 ≤ dt)) := by
    intro l
    apply List.filter_congr
    intro p _
    rw [decide_eq_decide, abs_le]
    constructor
    · intro h
      exact ⟨by linarith [h.1], by linarith [h.2]⟩
    · intro h
      exact ⟨by linarith [h.1], by linarith [h.2]⟩
  simp only [process_sink]
  rw [hfc]

/-- C4 witness: the selection theorem instantiated at dt = 1 on a
one-particle ensemble with a sentinel-only sink. -/
theorem process_sink_selects_witness :
    (0 : ℚ) < 1 ∧
    (process_sink 1 (Ensemble.init 1) (some skW) =
      (let taus := skW.find_absorption_time (Ensemble.init 1).x
        (Ensemble.init 1).v 1
       let idxs := (((List.range (Ensemble.init 1).num_ptcls).zip
           taus).filter
           (fun p => decide (0 ≤ p.2 ∧ p.2 ≤ 1))).map Prod.fst
       ((skW.record_absorption (Ensemble.init 1) 1 taus idxs).delete
         idxs)) ∧
      process_sink 1 (Ensemble.init 1) none = Ensemble.init 1) :=
  ⟨by norm_num,
    process_sink_selects_closed_interval 1 (Ensemble.init 1) skW
      (by norm_num)⟩

/-- C5: drift_kick with an empty force list and no sink is the pure
kinematic step: positions become x + dt * v, velocities are unchanged,
and no error (in particular no MissingMass) can be raised. -/
theorem drift_kick_kinematic (dt : ℚ) (ens : Ensemble) :
    drift_kick dt ens [] none =
      .ok { ens with x := kinDrift dt ens.x ens.v } := rfl

/-- C6: the mass used for the velocity update is resolved by looking up
the key mass first in the ensemble-wide properties, then only if absent
there in the per-particle properties; and on a force-driven step where
the resolved mass is absent from both maps, drift_kick fails with
MissingMass. -/
theorem drift_kick_mass_resolution :
    (∀ (e : Ensemble) (m : ℚ),
      e.ensemble_properties.lookup "mass" = some m →
      massLookup e = some (.scalar m)) ∧
    (∀ (e : Ensemble) (p : PropArray),
      e.ensemble_properties.lookup "mass" = none →
      e.particle_properties.lookup "mass" = some p →
      massLookup e = some (.perParticle p)) ∧
    (∀ (dt : ℚ) (ens : Ensemble) (forces : List Force)
        (sink : Option Sink),
      forces ≠ [] →
      massLookup (process_sink (dt / 2) ens sink) = none →
      drift_kick dt ens forces sink = .error .MissingMass) := by
  refine ⟨?_, ?_, ?_⟩
  · intro e m h
    simp [massLookup, h]
  · intro e p h1 h2
    simp [massLookup, h1, h2]
  · intro dt ens forces sink hne hm
    cases forces with
    | nil => exact absurd rfl hne
    | cons frc rest =>
      have hm' : massLookup
          { process_sink (dt / 2) ens sink with
            x := kinDrift (dt / 2) (process_sink (dt / 2) ens sink).x
              (process_sink (dt / 2) ens sink).v } = none := hm
      simp only [drift_kick, List.isEmpty_cons, Bool.false_eq_true,
        if_false, hm']

/-- C6 witness: resolution of an ensemble-wide mass of 5 and a
MissingMass failure on a massless forced step. -/
theorem drift_kick_mass_resolution_witness :
    eW.ensemble_properties.lookup "mass" = some 5 ∧
    massLookup eW = some (.scalar 5) ∧
    ([forceZero] : List Force) ≠ [] ∧
    massLookup (process_sink (1 / 2) (Ensemble.init 1) none) = none ∧
    drift_kick 1 (Ensemble.init 1) [forceZero] none =
      .error .MissingMass :=
  ⟨rfl, drift_kick_mass_resolution.1 eW 5 rfl, by simp, rfl,
    drift_kick_mass_resolution.2.2 1 (Ensemble.init 1) [forceZero] none
      (by simp) rfl⟩

lemma zip_map_getElem? {α β γ : Type} (f : α × β → γ) (xs : List α)
    (vs : List β) (i : Nat) (hx : i < xs.length) (hv : i < vs.length) :
    ((xs.zip vs).map f)[i]? = some (f (xs[i], vs[i])) := by
  induction xs generalizing vs i with
  | nil => simp at hx
  | cons a rest ih =>
    cases vs with
    | nil => simp at hv
    | cons b vrest =>
      cases i with
      | zero => simp
      | succ j =>
        simp only [List.zip_cons_cons, List.map_cons,
          List.getElem?_cons_succ, List.getElem_cons_succ]
        exact ih vrest j (by simpa using hx) (by simpa using hv)

/-- C7: SinkPlane.find_absorption_time returns the sentinel 2*dt for a
particle whose normal velocity component is exactly zero (the division is
never executed with a zero divisor), and otherwise returns
dot(normal, point - x_i) / dot(normal, v_i); concretely, against the
plane through the origin with normal (0, 0, 1) and dt = 1, a particle at
z = 5 with v_z = -10 has absorption time 1/2 and is deleted by
process_sink, while a particle with v_z = 0 gets the sentinel 2 > 1 and
survives. -/
theorem sink_plane_absorption (sp : SinkPlane) (xs vs : List (Vec3 ℚ))
    (dt : ℚ) (i : Nat) (hx : i < xs.length) (hv : i < vs.length) :
    ((sp.find_absorption_time xs vs dt)[i]? =
      some (if sp.normal.dot vs[i] = 0 then 2 * dt
        else sp.normal.dot (sp.point - xs[i]) / sp.normal.dot vs[i])) ∧
    planeZ.find_absorption_time [⟨0, 0, 5⟩] [⟨0, 0, -10⟩] 1 = [1 / 2] ∧
    (process_sink 1 ensFalling (some planeZ.toSink)).num_ptcls = 0 ∧
    planeZ.find_absorption_time [⟨0, 0, 5⟩] [⟨1, 0, 0⟩] 1 = [2] ∧
    (1 : ℚ) < 2 ∧
    (process_sink 1 ensSliding (some planeZ.toSink)).num_ptcls = 1 := by
  have htauF : planeZ.find_absorption_time [⟨0, 0, 5⟩] [⟨0, 0, -10⟩] 1 =
      [1 / 2] := by
    norm_num [SinkPlane.find_absorption_time, planeZ, Vec3.dot]
  have htauS : planeZ.find_absorption_time [⟨0, 0, 5⟩] [⟨1, 0, 0⟩] 1 =
      [2] := by
    norm_num [SinkPlane.find_absorption_time, planeZ, Vec3.dot]
  refine ⟨?_, htauF, ?_, htauS, by norm_num, ?_⟩
  · simp only [SinkPlane.find_absorption_time]
    rw [zip_map_getElem? _ xs vs i hx hv]
  · have h1 : planeZ.toSink.find_absorption_time ensFalling.x
        ensFalling.v 1 = [1 / 2] := htauF
    simp only [process_sink, h1]
    have h2 : ensFalling.num_ptcls = 1 := rfl
    rw [h2]
    have h3 : List.filter (fun p => decide (|p.2 - 1 / 2| ≤ 1 / 2))
        ((List.range 1).zip [(1 : ℚ) / 2]) = [(0, 1 / 2)] := by
      norm_num [List.range_succ, List.filter]
    rw [h3]
    rfl
  · have h1 : planeZ.toSink.find_absorption_time ensSliding.x
        ensSliding.v 1 = [2] := htauS
    simp only [process_sink, h1]
    have h2 : ensSliding.num_ptcls = 1 := rfl
    rw [h2]
    have h3 : List.filter (fun p => decide (|p.2 - 1 / 2| ≤ 1 / 2))
        ((List.range 1).zip [(2 : ℚ)]) = [] := by
      have hd : decide (|(3 : ℚ) / 2| ≤ 1 / 2) = false := by
        rw [decide_eq_false_iff_not]
        norm_num [abs_le]
      norm_num [List.range_succ, List.filter, hd]
    rw [h3]
    rfl

/-- C7 witness: the pointwise characterisation instantiated on the
falling particle of the concrete example. -/
theorem sink_plane_absorption_witness :
    (0 < 1 ∧ 0 < 1) ∧
    ((planeZ.find_absorption_time [⟨0, 0, 5⟩] [⟨0, 0, -10⟩] 1)[0]? =
      some (if planeZ.normal.dot (⟨0, 0, -10⟩ : Vec3 ℚ) = 0 then 2 * 1
        else planeZ.normal.dot (planeZ.point - ⟨0, 0, 5⟩) /
          planeZ.normal.dot (⟨0, 0, -10⟩ : Vec3 ℚ))) :=
  ⟨⟨by norm_num, by norm_num⟩,
    (sink_plane_absorption planeZ [⟨0, 0, 5⟩] [⟨0, 0, -10⟩] 1 0
      (by norm_num) (by norm_num)).1⟩

lemma rp_force_getElem (rp : RadiationPressure) (dt : ℝ)
    (x v draws f : List (Vec3 ℝ)) (i : Nat)
    (hf : i < f.length) (hs : i < (rp.intensity x).length)
    (hd : i < (rp.detuning x v).length) (hr : i < draws.length) :
    (rp.force dt x v draws f)[i]? =
      some (f[i] +
        (nbarOf rp.gamma dt (rp.intensity x)[i] (rp.detuning x v)[i] •
            rp.hbar_k +
          (Real.sqrt (nbarOf rp.gamma dt (rp.intensity x)[i]
              (rp.detuning x v)[i] / 3) * norm3 rp.hbar_k) • draws[i])) := by
  simp only [RadiationPressure.force, List.getElem?_zipWith']
  rw [List.getElem?_eq_getElem hf, List.getElem?_eq_getElem hs,
    List.getElem?_eq_getElem hd, List.getElem?_eq_getElem hr]
  simp

lemma rp_force_length (rp : RadiationPressure) (dt : ℝ)
    (x v draws f : List (Vec3 ℝ)) :
    (rp.force dt x v draws f).length =
      min f.length (min draws.length
        (min (rp.intensity x).length (rp.detuning x v).length)) := by
  simp only [RadiationPressure.force, List.length_zipWith]
  omega

lemma rp_force_zero_intensity (rp : RadiationPressure) (dt : ℝ)
    (x v draws f : List (Vec3 ℝ))
    (hls : (rp.intensity x).length = f.length)
    (hld : (rp.detuning x v).length = f.length)
    (hlr : draws.length = f.length)
    (hzero : ∀ s0 ∈ rp.intensity x, s0 = 0) :
    rp.force dt x v draws f = f := by
  apply List.ext_getElem?
  intro n
  by_cases hn : n < f.length
  · have hs : n < (rp.intensity x).length := by omega
    have hd : n < (rp.detuning x v).length := by omega
    have hr : n < draws.length := by omega
    rw [rp_force_getElem rp dt x v draws f n hn hs hd hr,
      List.getElem?_eq_getElem hn]
    have hsz : (rp.intensity x)[n] = 0 :=
      hzero _ (List.getElem_mem hs)
    rw [hsz]
    simp [nbarOf]
  · rw [List.getElem?_eq_none, List.getElem?_eq_none]
    · omega
    · rw [rp_force_length]
      omega

/-- C9: the amount RadiationPressure.force adds to the accumulator for
particle i equals nbar * hbar_k + sqrt(nbar/3) * norm(hbar_k) * r_i,
where r_i is the Gaussian draw and nbar = dt * s * (gamma/(2*pi)) *
(gamma/2)^2 / ((gamma/2)^2*(1+2*s) + delta^2); and when the intensities
are zero for all particles the accumulator is returned unchanged,
regardless of the draws. -/
theorem radiation_pressure_force_formula (rp : RadiationPressure)
    (dt : ℝ) (x v draws f : List (Vec3 ℝ)) (i : Nat)
    (hf : i < f.length) (hs : i < (rp.intensity x).length)
    (hd : i < (rp.detuning x v).length) (hr : i < draws.length) :
    ((rp.force dt x v draws f)[i]? =
      some (f[i] +
        (nbarOf rp.gamma dt (rp.intensity x)[i] (rp.detuning x v)[i] •
            rp.hbar_k +
          (Real.sqrt (nbarOf rp.gamma dt (rp.intensity x)[i]
              (rp.detuning x v)[i] / 3) * norm3 rp.hbar_k) •
            draws[i]))) ∧
    (∀ (x' v' draws' f' : List (Vec3 ℝ)),
      (rp.intensity x').length = f'.length →
      (rp.detuning x' v').length = f'.length →
      draws'.length = f'.length →
      (∀ s0 ∈ rp.intensity x', s0 = 0) →
      rp.force dt x' v' draws' f' = f') :=
  ⟨rp_force_getElem rp dt x v draws f i hf hs hd hr,
    fun x' v' draws' f' h1 h2 h3 h4 =>
      rp_force_zero_intensity rp dt x' v' draws' f' h1 h2 h3 h4⟩

/-- C9 witness: the formula theorem instantiated on a single particle of
the zero-intensity configuration, with a nonzero Gaussian draw. -/
theorem radiation_pressure_force_formula_witness :
    (0 < ([(0 : Vec3 ℝ)]).length ∧
      0 < (rpZero.intensity [(0 : Vec3 ℝ)]).length ∧
      0 < (rpZero.detuning [(0 : Vec3 ℝ)] [(0 : Vec3 ℝ)]).length ∧
      0 < ([(⟨1, 2, 3⟩ : Vec3 ℝ)]).length) ∧
    ((rpZero.force 1 [0] [0] [⟨1, 2, 3⟩] [(0 : Vec3 ℝ)])[0]? =
      some (([(0 : Vec3 ℝ)])[0] +
        (nbarOf rpZero.gamma 1 (rpZero.intensity [0])[0]
            (rpZero.detuning [0] [0])[0] • rpZero.hbar_k +
          (Real.sqrt (nbarOf rpZero.gamma 1 (rpZero.intensity [0])[0]
              (rpZero.detuning [0] [0])[0] / 3) * norm3 rpZero.hbar_k) •
            ([(⟨1, 2, 3⟩ : Vec3 ℝ)])[0]))) ∧
    (∀ (x' v' draws' f' : List (Vec3 ℝ)),
      (rpZero.intensity x').length = f'.length →
      (rpZero.detuning x' v').length = f'.length →
      draws'.length = f'.length →
      (∀ s0 ∈ rpZero.intensity x', s0 = 0) →
      rpZero.force 1 x' v' draws' f' = f') := by
  refine ⟨⟨by simp, by simp [rpZero, RadiationPressure.init, intensZero],
    by simp [rpZero, RadiationPressure.init, detunZero], by simp⟩, ?_, ?_⟩
  · exact (radiation_pressure_force_formula rpZero 1 [0] [0] [⟨1, 2, 3⟩]
      [0] 0 (by simp) (by simp [rpZero, RadiationPressure.init, intensZero])
      (by simp [rpZero, RadiationPressure.init, detunZero]) (by simp)).1
  · exact (radiation_pressure_force_formula rpZero 1 [0] [0] [⟨1, 2, 3⟩]
      [0] 0 (by simp) (by simp [rpZero, RadiationPressure.init, intensZero])
      (by simp [rpZero, RadiationPressure.init, detunZero]) (by simp)).2

/-- C8 counterexample: the constructor accepts gamma = -1 (which is <= 0)
and simply stores it — no InvalidConfiguration error exists in the code —
and force on an intensity of -1/10 computes a negative nbar and adds it
to the accumulator unchanged, with no NumericalAnomaly reporting. -/
theorem radiation_pressure_no_validation_cex :
    (RadiationPressure.init (-1) ⟨1, 0, 0⟩ intensNeg detunZero).gamma =
      -1 ∧
    nbarOf 2 1 (-1 / 10) 0 < 0 ∧
    rpNeg.force 1 [0] [0] [0] [0] =
      [⟨nbarOf 2 1 (-1 / 10) 0, 0, 0⟩] := by
  refine ⟨rfl, ?_, ?_⟩
  · have hpi : Real.pi ≠ 0 := Real.pi_ne_zero
    have he : nbarOf 2 1 (-1 / 10) 0 = -(1 / (8 * Real.pi)) := by
      rw [nbarOf]
      field_simp
      ring
    rw [he, neg_lt_zero]
    positivity
  · simp [RadiationPressure.force, rpNeg, RadiationPressure.init,
      intensNeg, detunZero, nbarOf]

/-- C8 (amended): constructing a RadiationPressure with gamma <= 0
succeeds without any validation error, storing the parameters verbatim,
and RadiationPressure.force adds the nbar-scaled contribution to the
accumulator unconditionally even when nbar is negative, reporting no
error. -/
theorem radiation_pressure_unvalidated (gamma : ℝ) (k : Vec3 ℝ)
    (intens : List (Vec3 ℝ) → List ℝ)
    (detun : List (Vec3 ℝ) → List (Vec3 ℝ) → List ℝ)
    (hg : gamma ≤ 0) :
    RadiationPressure.init gamma k intens detun =
      { gamma := gamma, hbar_k := k
        intensity := intens, detuning := detun } ∧
    (∀ (rp : RadiationPressure) (dt : ℝ)
        (x v draws f : List (Vec3 ℝ)) (i : Nat)
        (h1 : i < f.length) (h2 : i < (rp.intensity x).length)
        (h3 : i < (rp.detuning x v).length) (h4 : i < draws.length),
      (rp.force dt x v draws f)[i]? =
        some (f[i] +
          (nbarOf rp.gamma dt (rp.intensity x)[i] (rp.detuning x v)[i] •
              rp.hbar_k +
            (Real.sqrt (nbarOf rp.gamma dt (rp.intensity x)[i]
                (rp.detuning x v)[i] / 3) * norm3 rp.hbar_k) •
              draws[i]))) :=
  ⟨rfl, fun rp dt x v draws f i h1 h2 h3 h4 =>
    rp_force_getElem rp dt x v draws f i h1 h2 h3 h4⟩

/-- C8 amended witness: the unvalidated-construction theorem instantiated
at gamma = -1. -/
theorem radiation_pressure_unvalidated_witness :
    (-1 : ℝ) ≤ 0 ∧
    (RadiationPressure.init (-1) ⟨1, 0, 0⟩ intensNeg detunZero =
      { gamma := -1, hbar_k := ⟨1, 0, 0⟩
        intensity := intensNeg, detuning := detunZero } ∧
    (∀ (rp : RadiationPressure) (dt : ℝ)
        (x v draws f : List (Vec3 ℝ)) (i : Nat)
        (h1 : i < f.length) (h2 : i < (rp.intensity x).length)
        (h3 : i < (rp.detuning x v).length) (h4 : i < draws.length),
      (rp.force dt x v draws f)[i]? =
        some (f[i] +
          (nbarOf rp.gamma dt (rp.intensity x)[i] (rp.detuning x v)[i] •
              rp.hbar_k +
            (Real.sqrt (nbarOf rp.gamma dt (rp.intensity x)[i]
                (rp.detuning x v)[i] / 3) * norm3 rp.hbar_k) •
              draws[i])))) :=
  ⟨by norm_num,
    radiation_pressure_unvalidated (-1) ⟨1, 0, 0⟩ intensNeg detunZero
      (by norm_num)⟩
